import Mathlib

/-!
Verification development for the space layer of the nmslib similarity-search
library: the phase-gated `Space` contract (`space.h`), the sparse-vector space
(`space_sparse_vector.cc`) and the word-embedding space (`space_word_embed.cc`).

The C++ code is shallowly embedded: stateful stream reading becomes explicit
state passing over a list of input lines, `throw`/fatal logging becomes
`Except`, and the numeric payload type `dist_t` (float/double) is a type
parameter `V` equipped with external parse/render functions, mirroring the
fact that numeric token formatting is delegated to the C++ standard library.
-/

namespace Nmslib

/-! ### Character-level utilities

`isspace` from `<cctype>` (C locale): space, \t, \n, \v, \f, \r.
Characters are compared through their code points. -/

def isSpaceC (c : Char) : Bool :=
  c.toNat == 32 || c.toNat == 9 || c.toNat == 10 ||
  c.toNat == 11 || c.toNat == 12 || c.toNat == 13

/-- ASCII decimal digit test (code points 48–57), as used by `operator>>`
when extracting unsigned integers. -/
def isDigitC (c : Char) : Bool :=
  48 ≤ c.toNat && c.toNat ≤ 57

/-- Numeric value accumulated over a digit list, as `operator>>` does. -/
def digitsVal (cs : List Char) : Nat :=
  cs.foldl (fun a c => a * 10 + (c.toNat - 48)) 0

/-- Extraction of a `uint32_t` from one whitespace-delimited token
(`str >> id` in `ReadSparseVec`): succeeds only when the token is a
nonempty run of decimal digits.  (Overflow of `uint32_t` never occurs at
the indices considered in this development.) -/
def parseNatL (cs : List Char) : Option Nat :=
  if cs = [] then none
  else if cs.all isDigitC then some (digitsVal cs) else none

/-- Signed-integer extraction (`atoi`-style) used for label values. -/
def parseIntL (cs : List Char) : Option Int :=
  match cs with
  | '-' :: rest => (parseNatL rest).map (fun n => -(n : Int))
  | _ => (parseNatL cs).map (fun n => (n : Int))

/-- Whitespace tokenization of a character stream, accumulating the current
token in reverse: this is how `operator>>` splits its input into tokens. -/
def tokenizeGo : List Char → List Char → List (List Char)
  | [], [] => []
  | [], acc => [acc.reverse]
  | c :: cs, acc =>
    if isSpaceC c then
      match acc with
      | [] => tokenizeGo cs []
      | _ :: _ => acc.reverse :: tokenizeGo cs []
    else tokenizeGo cs (c :: acc)

def tokenizeL (cs : List Char) : List (List Char) :=
  tokenizeGo cs []

/-- Decimal rendering of a natural number (`operator<<` on an unsigned
integer): most significant digit first. -/
def natToChars (n : Nat) : List Char :=
  if h : n < 10 then [Char.ofNat (48 + n)]
  else natToChars (n / 10) ++ [Char.ofNat (48 + n % 10)]
termination_by n
decreasing_by
  exact Nat.div_lt_self (Nat.lt_of_lt_of_le (by decide) (Nat.le_of_not_lt h)) (by decide)

/-- Join tokens with single spaces, the shape produced by the serialization
loops (`if (i) out << " "; out << ...`). -/
def joinTokens : List (List Char) → List Char
  | [] => []
  | [t] => t
  | t :: ts => t ++ ' ' :: joinTokens ts

/-! ### The `Space` contract and the phase gate (space.h)

A `Space` instance is its mutable phase flag `bIndexPhase` (default `true`,
space.h line 219) together with the subclass-specific state `sub` (for
`WordEmbedSpace`, the configured metric).  Virtual functions of subclasses
are passed explicitly. -/

structure SpaceInst (σ : Type) where
  sub : σ
  bIndexPhase : Bool := true
deriving DecidableEq

/-- `SetIndexPhase` (space.h line 205). -/
def SpaceInst.SetIndexPhase {σ : Type} (s : SpaceInst σ) : SpaceInst σ :=
  { s with bIndexPhase := true }

/-- `SetQueryPhase` (space.h line 206). -/
def SpaceInst.SetQueryPhase {σ : Type} (s : SpaceInst σ) : SpaceInst σ :=
  { s with bIndexPhase := false }

/-- The message of the `runtime_error` thrown by `IndexTimeDistance`
(space.h lines 119-120); `__func__` expands to the function name. -/
def phaseViolationMsg : String :=
  "The public function IndexTimeDistance function is accessible only during the indexing phase!"

/-- `Space::IndexTimeDistance` (space.h lines 117-123): throws unless the
instance is in the index phase, otherwise delegates to the subclass's
`HiddenDistance`, passed here as the function `hiddenDistance`. -/
def SpaceInst.IndexTimeDistance {σ O D : Type} (hiddenDistance : σ → O → O → D)
    (s : SpaceInst σ) (a b : O) : Except String D :=
  if s.bIndexPhase = false then .error phaseViolationMsg
  else .ok (hiddenDistance s.sub a b)

/-- `Space::Clone` (space.h lines 110-114): clones via the subclass's
`HiddenClone` and then forces the index phase on the result. -/
def SpaceInst.Clone {σ : Type} (hiddenClone : SpaceInst σ → SpaceInst σ)
    (s : SpaceInst σ) : SpaceInst σ :=
  (hiddenClone s).SetIndexPhase

/-! ### WordEmbedSpace (space_word_embed.cc) -/

/-- The metric selector `EmbedDistSpace` with its two recognized values
`kEmbedDistL2` and `kEmbedDistCosine`. -/
inductive EmbedDistType where
  | l2
  | cosine
deriving DecidableEq

/-- `WordEmbedSpace::HiddenClone` (space_word_embed.cc lines 103-106):
`new WordEmbedSpace<dist_t>(distType_)` — a fresh instance carrying the same
metric, whose phase flag starts at the default `true`. -/
def wordEmbedHiddenClone (s : SpaceInst EmbedDistType) : SpaceInst EmbedDistType :=
  { sub := s.sub, bIndexPhase := true }

/-- `Clone` as inherited by `WordEmbedSpace`. -/
def wordEmbedClone (s : SpaceInst EmbedDistType) : SpaceInst EmbedDistType :=
  SpaceInst.Clone wordEmbedHiddenClone s

/-- `DataFileInputState` (space.h lines 76-91): an open text source, modelled
as the list of lines not yet consumed, and the current line counter
`line_num_` (0 before the first read). -/
structure DataFileInputState where
  lines : List String
  line_num : Nat
deriving DecidableEq

/-- `WordEmbedSpace::ReadNextObjStr` (space_word_embed.cc lines 51-69).
Returns `none` at end of data; otherwise increments the line counter, looks
for the first whitespace character, throws the runtime error built at lines
61-64 when there is none (note that the message text quotes the five
characters `strObj` literally), and otherwise yields the pair
(externId, strObj) = (prefix before the whitespace, suffix after it). -/
def wordEmbedReadNextObjStr (st : DataFileInputState) :
    Except String (Option (String × String) × DataFileInputState) :=
  match st.lines with
  | [] => .ok (none, st)
  | line :: rest =>
    let st1 : DataFileInputState := ⟨rest, st.line_num + 1⟩
    let cs := line.data
    match cs.findIdx? isSpaceC with
    | none => .error ("No white space in line #" ++ toString st1.line_num ++ " line: 'strObj'")
    | some pos => .ok (some (String.mk (cs.take pos), String.mk (cs.drop (pos + 1))), st1)

/-- `HasWhiteSpace`.  Modelled from the spec: this string helper lives in the
generic utilities (not under src/); per §4.3 it tests whether the identifier
contains a whitespace character. -/
def HasWhiteSpace (s : String) : Bool :=
  s.data.any isSpaceC

/-- `WordEmbedSpace::CreateStrFromObj` (space_word_embed.cc lines 40-49):
throws when the external identifier contains whitespace; otherwise obtains
the dense payload text from `VectorSpace::CreateStrFromObj` (an external
collaborator here, passed as `denseStr`) and prepends `externId + " "` only
when the identifier is nonempty. -/
def wordEmbedCreateStrFromObj {O : Type} (denseStr : O → String)
    (o : O) (externId : String) : Except String String :=
  if HasWhiteSpace externId then
    .error ("The id '" ++ externId ++ "' has the white space (but it shouldn't)")
  else
    let res := denseStr o
    .ok (if externId.data = [] then res else externId ++ " " ++ res)

/-- `WordEmbedSpace::HiddenDistance` (space_word_embed.cc lines 87-101).
Objects are their dense payloads (lists of `dist_t` elements; `datalength`
is the element count times `sizeof(dist_t)`, so the length checks coincide).
The two `CHECK` assertions fail on an empty first operand or on unequal
lengths; otherwise the call dispatches to the external kernels `L2NormSIMD`
or `CosineSimilarity` according to the configured metric. -/
def wordEmbedHiddenDistance {D : Type} (l2f cosf : List D → List D → D)
    (dt : EmbedDistType) (x y : List D) : Except String D :=
  if ¬ 0 < x.length then .error "CHECK failed: obj1->datalength() > 0"
  else if ¬ x.length = y.length then
    .error "CHECK failed: obj1->datalength() == obj2->datalength()"
  else
    match dt with
    | .l2 => .ok (l2f x y)
    | .cosine => .ok (cosf x y)

/-! ### SparseVectorSpace (space_sparse_vector.cc)

The element value type `dist_t` (float/double) is a type parameter `V`; the
standard library's numeric token extraction (`str >> val`) and formatting
(`operator<<` at `max_digits10` precision) are passed in as the functions
`pv : List Char → Option V` and `rv : V → List Char`. -/

/-- Does a token carry the `LABEL_PREFIX` (`"label:"`, space.h line 36)? -/
def isLabelTok (t : List Char) : Bool :=
  "label:".data.isPrefixOf t

/-- `Object::extractLabel`.  Modelled from the spec: the function lives in
object.h (not under src/); per §4.2/§6 it extracts an optional label token
with the recognized prefix convention from anywhere in the line, yielding
the integer after the prefix (`none` when the line has no label token). -/
def labelOf (line : String) : Option Int :=
  (tokenizeL line.data).findSome? fun t =>
    if isLabelTok t then parseIntL (t.drop 6) else none

/-- The loop `while (str >> id && str >> val) v.push_back(ElemType(id, val))`
(space_sparse_vector.cc lines 51-53) over the token stream: reads alternating
(index, value) pairs and stops at the first token that fails to extract. -/
def parsePairs {V : Type} (pv : List Char → Option V) :
    List (List Char) → List (Nat × V)
  | t1 :: t2 :: rest =>
    match parseNatL t1, pv t2 with
    | some i, some v => (i, v) :: parsePairs pv rest
    | _, _ => []
  | _ => []

/-- `SparseVectElem` comparison is by `id_` (spec §2.6: elements ordered by
index); `sort(v.begin(), v.end())` sorts by this order. -/
def leId {V : Type} (a b : Nat × V) : Prop := a.1 ≤ b.1

def ltId {V : Type} (a b : Nat × V) : Prop := a.1 < b.1

instance {V : Type} : DecidableRel (leId (V := V)) := fun a b =>
  inferInstanceAs (Decidable (a.1 ≤ b.1))

instance {V : Type} : DecidableRel (ltId (V := V)) := fun a b =>
  inferInstanceAs (Decidable (a.1 < b.1))

instance {V : Type} : IsTotal (Nat × V) leId := ⟨fun a b => Nat.le_total a.1 b.1⟩

instance {V : Type} : IsTrans (Nat × V) leId := ⟨fun _ _ _ => Nat.le_trans⟩

instance {V : Type} : IsTrans (Nat × V) ltId := ⟨fun _ _ _ => Nat.lt_trans⟩

/-- The two exceptions thrown by the validation loop of `ReadSparseVec`
(space_sparse_vector.cc lines 56-71), carrying the data interpolated into
their messages: previous (index, value), current (index, value), and the
loop position `i`. -/
inductive SparseErr (V : Type) where
  | dupIndex (prevId : Nat) (prevVal : V) (curId : Nat) (curVal : V) (i : Nat)
  | outOfOrder (prevId : Nat) (prevVal : V) (curId : Nat) (curVal : V) (i : Nat)
deriving DecidableEq

def SparseErr.isOutOfOrder {V : Type} : SparseErr V → Bool
  | .outOfOrder .. => true
  | _ => false

/-- The catch block (space_sparse_vector.cc lines 72-75) logs the exception
and then fails fatally, naming the line number; modelled, per spec §9, as a
propagated error wrapping the thrown condition.  (The fatal log line also
echoes the line text; that text is not inspected by any claim and is not
carried here.) -/
structure FatalParse (V : Type) where
  err : SparseErr V
  lineNum : Nat
deriving DecidableEq

/-- The validation loop `for (unsigned i = 1; i < v.size(); ++i)`
(space_sparse_vector.cc lines 56-71): walks adjacent pairs of the sorted
vector and throws on a repeated id, or on a decreasing id, whichever the
first offense is. -/
def validateFrom {V : Type} : Nat → List (Nat × V) → Option (SparseErr V)
  | _, [] => none
  | _, [_] => none
  | i, a :: b :: rest =>
    if b.1 = a.1 then some (.dupIndex a.1 a.2 b.1 b.2 i)
    else if b.1 < a.1 then some (.outOfOrder a.1 a.2 b.1 b.2 i)
    else validateFrom (i + 1) (b :: rest)

/-- `SpaceSparseVector::ReadSparseVec` (space_sparse_vector.cc lines 36-76).
NOTE the faithful order of operations: the `stringstream` is constructed from
`line` at line 39, BEFORE `extractLabel` (line 46) and `ReplaceSomePunct`
(line 48) modify the local copy of `line` — so the token stream always sees
the original, unnormalized line, while the label is still extracted from it.
The tokens are read as (id, val) pairs, sorted by id, and validated. -/
def ReadSparseVec {V : Type} (pv : List Char → Option V) (line : String)
    (lineNum : Nat) : Except (FatalParse V) (Option Int × List (Nat × V)) :=
  let label := labelOf line
  let v := List.insertionSort leId (parsePairs pv (tokenizeL line.data))
  match validateFrom 1 v with
  | none => .ok (label, v)
  | some e => .error ⟨e, lineNum⟩

/-- An `Object` of the sparse space: identifier, label, and the payload in
canonical binary form.  Modelled from the spec (§4.2 step 6, the packing
helper `CreateObjFromVect` lives in the header, not under src/): the payload
is the validated (index, value) sequence itself. -/
structure SparseObj (V : Type) where
  id : Int
  label : Option Int
  pairs : List (Nat × V)
deriving DecidableEq

/-- `CreateObjFromVect`: materialize the validated sequence as the payload. -/
def sparseCreateObjFromVect {V : Type} (id : Int) (label : Option Int)
    (pairs : List (Nat × V)) : SparseObj V :=
  ⟨id, label, pairs⟩

/-- `CreateVectFromObj`: decode the payload back to the element sequence. -/
def sparseCreateVectFromObj {V : Type} (o : SparseObj V) : List (Nat × V) :=
  o.pairs

/-- `SpaceSparseVector::ApproxEqual` (space_sparse_vector.cc lines 104-111):
decode both objects and compare the element sequences exactly. -/
def sparseApproxEqual {V : Type} [DecidableEq V] (o1 o2 : SparseObj V) : Bool :=
  decide (sparseCreateVectFromObj o1 = sparseCreateVectFromObj o2)

inductive SparseCreateErr (V : Type) where
  | nullState
  | parseFail (e : FatalParse V)
deriving DecidableEq

/-- `SpaceSparseVector::CreateObjFromStr` (space_sparse_vector.cc lines
91-102): rejects a null input state, parses the line at the state's current
line number (note that `ReadSparseVec` overwrites the `label` argument with
the label it extracts), and packs the result. -/
def sparseCreateObjFromStr {V : Type} (pv : List Char → Option V) (id : Int)
    (label : Option Int) (s : String) (pState : Option DataFileInputState) :
    Except (SparseCreateErr V) (SparseObj V) :=
  match pState with
  | none => .error .nullState
  | some st =>
    match ReadSparseVec pv s st.line_num with
    | .error e => .error (.parseFail e)
    | .ok (lab, v) => .ok (sparseCreateObjFromVect id lab v)

/-- The token sequence `id₁ val₁ id₂ val₂ …` emitted by the serialization
loop of `CreateStrFromObj`. -/
def pairTokens {V : Type} (rv : V → List Char) : List (Nat × V) → List (List Char)
  | [] => []
  | p :: rest => natToChars p.1 :: rv p.2 :: pairTokens rv rest

/-- `SpaceSparseVector::CreateStrFromObj` (space_sparse_vector.cc lines
113-130): decode the payload and emit `"id val"` pairs separated by single
spaces; value formatting (reset flags, `max_digits10` precision) is the
external rendering `rv`. -/
def sparseCreateStrFromObj {V : Type} (rv : V → List Char) (o : SparseObj V) :
    String :=
  String.mk (joinTokens (pairTokens rv (sparseCreateVectFromObj o)))

/-- Was the out-of-order condition reported by `CreateObjFromStr`? -/
def createReportsOutOfOrder {V : Type}
    (r : Except (SparseCreateErr V) (SparseObj V)) : Bool :=
  match r with
  | .error (.parseFail e) => e.err.isOutOfOrder
  | _ => false

/-- An exact decimal value `mant / 10 ^ scale`, kept unnormalized so that
the concrete evaluations below reduce in the kernel; its numeric meaning is
`DecVal.toRat`.  Used as the concrete `dist_t` instance for inputs such as
`1.5` — IEEE floats represent short decimal literals exactly, and only
(in)equality of values is ever consumed here, never arithmetic. -/
structure DecVal where
  mant : Int
  scale : Nat
deriving DecidableEq

def DecVal.toRat (d : DecVal) : ℚ :=
  (d.mant : ℚ) / (10 : ℚ) ^ d.scale

/-- `operator>>` extraction of a `dist_t` from one token, for the concrete
claims: plain decimal literals (optional sign, digits, optional fractional
part).  The full C++ grammar also admits exponent forms; the inputs in this
development do not use them. -/
def parseDecMag (cs : List Char) : Option DecVal :=
  let ip := cs.takeWhile isDigitC
  let rest := cs.drop ip.length
  if ip = [] then none
  else
    match rest with
    | [] => some ⟨(digitsVal ip : Int), 0⟩
    | '.' :: fp =>
      if fp.all isDigitC then
        some ⟨((digitsVal ip * 10 ^ fp.length + digitsVal fp : Nat) : Int), fp.length⟩
      else none
    | _ => none

def parseDecL (cs : List Char) : Option DecVal :=
  match cs with
  | '-' :: rest => (parseDecMag rest).map (fun d => ⟨-d.mant, d.scale⟩)
  | _ => parseDecMag cs

instance {ε α : Type} [DecidableEq ε] [DecidableEq α] : DecidableEq (Except ε α) := fun a b =>
  match a, b with
  | .ok x, .ok y =>
    if h : x = y then .isTrue (congrArg Except.ok h)
    else .isFalse (fun hc => h (Except.ok.inj hc))
  | .error x, .error y =>
    if h : x = y then .isTrue (congrArg Except.error h)
    else .isFalse (fun hc => h (Except.error.inj hc))
  | .ok _, .error _ => .isFalse (fun hc => Except.noConfusion hc)
  | .error _, .ok _ => .isFalse (fun hc => Except.noConfusion hc)

/-! ### Claims about the phase gate and cloning -/

/-- C1: `index_time_distance(a, b)` fails with the phase-violation error when
the instance's phase flag is false (query phase) and returns the underlying
metric distance `HiddenDistance(a, b)` when the flag is true (index phase). -/
theorem indexTimeDistance_phase_gate {σ O D : Type}
    (hiddenDistance : σ → O → O → D) (s : SpaceInst σ) (a b : O) :
    (s.bIndexPhase = false →
      s.IndexTimeDistance hiddenDistance a b = .error phaseViolationMsg) ∧
    (s.bIndexPhase = true →
      s.IndexTimeDistance hiddenDistance a b = .ok (hiddenDistance s.sub a b)) := by
  constructor <;> intro h <;> simp [SpaceInst.IndexTimeDistance, h]

/-- Witness for C1 at a concrete space over `Nat` objects: in query phase the
call fails with the phase-violation message, in index phase it returns the
metric value. -/
theorem indexTimeDistance_phase_gate_witness :
    ((⟨(), false⟩ : SpaceInst Unit).bIndexPhase = false ∧
      (⟨(), false⟩ : SpaceInst Unit).IndexTimeDistance (fun _ a b => a + b) 3 4 =
        .error phaseViolationMsg) ∧
    ((⟨(), true⟩ : SpaceInst Unit).bIndexPhase = true ∧
      (⟨(), true⟩ : SpaceInst Unit).IndexTimeDistance (fun _ a b => a + b) 3 4 =
        .ok 7) :=
  ⟨⟨rfl, (indexTimeDistance_phase_gate (fun _ a b => a + b) ⟨(), false⟩ 3 4).1 rfl⟩,
   ⟨rfl, (indexTimeDistance_phase_gate (fun _ a b => a + b) ⟨(), true⟩ 3 4).2 rfl⟩⟩

/-- C2: `clone()` produces a copy whose phase flag is true (index phase)
regardless of the source's current flag — for any subclass clone function —
and for a `WordEmbedSpace` the clone's configured metric equals the
original's. -/
theorem clone_resets_phase_preserves_metric :
    (∀ (σ : Type) (hiddenClone : SpaceInst σ → SpaceInst σ) (s : SpaceInst σ),
      (SpaceInst.Clone hiddenClone s).bIndexPhase = true) ∧
    (∀ s : SpaceInst EmbedDistType,
      (wordEmbedClone s).sub = s.sub ∧ (wordEmbedClone s).bIndexPhase = true) :=
  ⟨fun _ _ _ => rfl, fun _ => ⟨rfl, rfl⟩⟩

/-! ### Claims about the word-embedding space -/

/-- C7 (code bug): on the line `"cat"`, which contains no whitespace,
`ReadNextObjStr` does fail and does report the line number, but its message
quotes the literal characters `strObj` — the line content is not in the
message, because line 62 of space_word_embed.cc puts the variable name
inside the string literal. -/
theorem wordEmbedRead_no_whitespace_literal_strObj :
    wordEmbedReadNextObjStr ⟨["cat"], 0⟩ =
      .error "No white space in line #1 line: 'strObj'" ∧
    ("No white space in line #1 line: 'strObj'" : String) ≠
      "No white space in line #1 line: 'cat'" := by
  refine ⟨?_, by decide⟩
  rfl

/-- C8 counterexample: with an empty external identifier (which contains no
whitespace), `CreateStrFromObj` emits the bare payload, not
`"<external_id> <payload>"` (which would carry a leading space). -/
theorem wordEmbedCreateStr_empty_id_cex :
    HasWhiteSpace "" = false ∧
    wordEmbedCreateStrFromObj (fun _ : Unit => "0.1 0.2") () "" = .ok "0.1 0.2" ∧
    ("0.1 0.2" : String) ≠ "" ++ " " ++ "0.1 0.2" := by
  refine ⟨rfl, ?_, by decide⟩
  rfl

/-- C8 amended: `create_text_from_object` fails with the validation error
when the identifier contains whitespace; otherwise it emits
`"<external_id> <payload>"` when the identifier is nonempty, and the bare
payload when the identifier is empty. -/
theorem wordEmbedCreateStr_id_cases {O : Type} (denseStr : O → String)
    (o : O) (externId : String) :
    (HasWhiteSpace externId = true →
      wordEmbedCreateStrFromObj denseStr o externId =
        .error ("The id '" ++ externId ++ "' has the white space (but it shouldn't)")) ∧
    (HasWhiteSpace externId = false → externId.data ≠ [] →
      wordEmbedCreateStrFromObj denseStr o externId =
        .ok (externId ++ " " ++ denseStr o)) ∧
    (HasWhiteSpace externId = false → externId.data = [] →
      wordEmbedCreateStrFromObj denseStr o externId = .ok (denseStr o)) := by
  refine ⟨fun h => ?_, fun h h2 => ?_, fun h h2 => ?_⟩
  · simp [wordEmbedCreateStrFromObj, h]
  · simp [wordEmbedCreateStrFromObj, h, h2]
  · simp [wordEmbedCreateStrFromObj, h, h2]

/-- Witness for C8 (amended) at the three concrete identifiers
`"a b"`, `"cat"` and `""`. -/
theorem wordEmbedCreateStr_id_cases_witness :
    (HasWhiteSpace "a b" = true ∧
      wordEmbedCreateStrFromObj (fun _ : Unit => "0.5") () "a b" =
        .error ("The id '" ++ "a b" ++ "' has the white space (but it shouldn't)")) ∧
    (HasWhiteSpace "cat" = false ∧ "cat".data ≠ [] ∧
      wordEmbedCreateStrFromObj (fun _ : Unit => "0.5") () "cat" =
        .ok ("cat" ++ " " ++ "0.5")) ∧
    (HasWhiteSpace "" = false ∧ "".data = [] ∧
      wordEmbedCreateStrFromObj (fun _ : Unit => "0.5") () "" = .ok "0.5") :=
  ⟨⟨rfl, (wordEmbedCreateStr_id_cases (fun _ : Unit => "0.5") () "a b").1 rfl⟩,
   ⟨rfl, by decide, (wordEmbedCreateStr_id_cases (fun _ : Unit => "0.5") () "cat").2.1 rfl (by decide)⟩,
   ⟨rfl, rfl, (wordEmbedCreateStr_id_cases (fun _ : Unit => "0.5") () "").2.2 rfl rfl⟩⟩

/-- C9: `HiddenDistance` fails (via its `CHECK` assertions) unless the two
payloads have equal nonzero length, and on equal nonzero lengths dispatches
to the L2 or cosine kernel according to the configured metric. -/
theorem wordEmbedHiddenDistance_dimension_check {D : Type}
    (l2f cosf : List D → List D → D) (dt : EmbedDistType) (x y : List D) :
    (¬ (0 < x.length ∧ x.length = y.length) →
      ∃ msg, wordEmbedHiddenDistance l2f cosf dt x y = .error msg) ∧
    (0 < x.length → x.length = y.length →
      wordEmbedHiddenDistance l2f cosf dt x y =
        .ok (match dt with | .l2 => l2f x y | .cosine => cosf x y)) := by
  constructor
  · intro h
    by_cases h1 : 0 < x.length
    · have h2 : ¬ x.length = y.length := fun hc => h ⟨h1, hc⟩
      exact ⟨"CHECK failed: obj1->datalength() == obj2->datalength()",
        by simp [wordEmbedHiddenDistance, h1, h2]⟩
    · exact ⟨"CHECK failed: obj1->datalength() > 0",
        by simp [wordEmbedHiddenDistance, h1]⟩
  · intro h1 h2
    unfold wordEmbedHiddenDistance
    rw [if_neg (not_not_intro h1), if_neg (not_not_intro h2)]
    cases dt <;> rfl

/-- Witness for C9: an empty first operand fails; equal-length nonempty
operands return the configured kernel's value (here the L2 kernel). -/
theorem wordEmbedHiddenDistance_dimension_check_witness :
    (¬ (0 < ([] : List Nat).length ∧ ([] : List Nat).length = [1].length) ∧
      ∃ msg, wordEmbedHiddenDistance (fun a _ => a.length) (fun _ _ => 0) .l2
        ([] : List Nat) [1] = .error msg) ∧
    (0 < [5].length ∧ [5].length = [7].length ∧
      wordEmbedHiddenDistance (fun a _ => a.length) (fun _ _ => 0) .l2 [5] [7] =
        .ok 1) :=
  ⟨⟨by decide,
    (wordEmbedHiddenDistance_dimension_check (fun a _ => a.length) (fun _ _ => 0) .l2
      ([] : List Nat) [1]).1 (by decide)⟩,
   ⟨by decide, by decide,
    (wordEmbedHiddenDistance_dimension_check (fun a _ => a.length) (fun _ _ => 0) .l2
      [5] [7]).2 (by decide) (by decide)⟩⟩

/-- C10 (implicit): a line beginning with a whitespace character is read
without error: the external identifier is empty and the payload is
everything after that first whitespace character. -/
theorem wordEmbedRead_leading_whitespace (c : Char) (cs : List Char)
    (rest : List String) (n : Nat) (h : isSpaceC c = true) :
    wordEmbedReadNextObjStr ⟨String.mk (c :: cs) :: rest, n⟩ =
      .ok (some ("", String.mk cs), ⟨rest, n + 1⟩) := by
  simp [wordEmbedReadNextObjStr, List.findIdx?_cons, h]

/-- Witness for C10: the line `" 0.5 1"` yields an empty identifier and the
payload `"0.5 1"`. -/
theorem wordEmbedRead_leading_whitespace_witness :
    isSpaceC ' ' = true ∧
    wordEmbedReadNextObjStr ⟨[" 0.5 1"], 3⟩ = .ok (some ("", "0.5 1"), ⟨[], 4⟩) :=
  ⟨rfl, wordEmbedRead_leading_whitespace ' ' "0.5 1".data [] 3 rfl⟩

/-! ### Supporting lemmas about the sparse validation loop -/

/-- On an id-sorted vector the validation loop never reports the
out-of-order condition: only the duplicate branch can fire. -/
theorem validateFrom_no_ooo {V : Type} :
    ∀ (l : List (Nat × V)), l.Pairwise leId →
      ∀ i e, validateFrom i l = some e → e.isOutOfOrder = false := by
  intro l
  induction l with
  | nil => intro _ i e h; simp [validateFrom] at h
  | cons a tail ih =>
    intro hp i e h
    cases tail with
    | nil => simp [validateFrom] at h
    | cons b rest =>
      have hpc := List.pairwise_cons.mp hp
      have hab : a.1 ≤ b.1 := hpc.1 b (List.mem_cons_self b rest)
      by_cases hd : b.1 = a.1
      · rw [validateFrom, if_pos hd] at h
        injection h with h2
        rw [← h2]
        rfl
      · have hoo : ¬ b.1 < a.1 := Nat.not_lt.mpr hab
        rw [validateFrom, if_neg hd, if_neg hoo] at h
        exact ih hpc.2 (i + 1) e h

/-- On a strictly-increasing vector the validation loop passes. -/
theorem validateFrom_eq_none {V : Type} :
    ∀ (l : List (Nat × V)), l.Pairwise ltId → ∀ i, validateFrom i l = none := by
  intro l
  induction l with
  | nil => intro _ i; rfl
  | cons a tail ih =>
    intro hp i
    cases tail with
    | nil => rfl
    | cons b rest =>
      have hpc := List.pairwise_cons.mp hp
      have hab : a.1 < b.1 := hpc.1 b (List.mem_cons_self b rest)
      have h1 : ¬ b.1 = a.1 := fun hc => absurd (hc ▸ hab) (Nat.lt_irrefl _)
      have h2 : ¬ b.1 < a.1 := Nat.not_lt.mpr (Nat.le_of_lt hab)
      rw [validateFrom, if_neg h1, if_neg h2]
      exact ih hpc.2 (i + 1)

/-- On an id-sorted vector whose ids are not all distinct, the validation
loop reports a duplicate: the same id in both reported positions, with both
offending (index, value) pairs taken from the vector. -/
theorem validateFrom_dup {V : Type} :
    ∀ (l : List (Nat × V)), l.Pairwise leId → ¬ (l.map Prod.fst).Nodup →
      ∀ i, ∃ d v1 v2 j, validateFrom i l = some (.dupIndex d v1 d v2 j) ∧
        (d, v1) ∈ l ∧ (d, v2) ∈ l := by
  intro l
  induction l with
  | nil => intro _ hnd _; exact absurd List.nodup_nil hnd
  | cons a tail ih =>
    intro hp hnd i
    cases tail with
    | nil =>
      exact absurd (by simp) hnd
    | cons b rest =>
      have hpc := List.pairwise_cons.mp hp
      have hab : a.1 ≤ b.1 := hpc.1 b (List.mem_cons_self b rest)
      by_cases hd : b.1 = a.1
      · refine ⟨a.1, a.2, b.2, i, ?_, by simp, ?_⟩
        · rw [validateFrom, if_pos hd, hd]
        · rw [← hd]
          simp
      · have hstrict : a.1 < b.1 := Nat.lt_of_le_of_ne hab (fun hc => hd hc.symm)
        have h2 : ¬ b.1 < a.1 := Nat.not_lt.mpr hab
        have hninT : a.1 ∉ ((b :: rest).map Prod.fst) := by
          intro hmem
          simp only [List.map_cons, List.mem_cons, List.mem_map] at hmem
          rcases hmem with h | ⟨c, hc, hce⟩
          · exact hd h.symm
          · have hbc : b.1 ≤ c.1 := (List.pairwise_cons.mp hpc.2).1 c hc
            rw [hce] at hbc
            exact absurd (Nat.lt_of_lt_of_le hstrict hbc) (Nat.lt_irrefl _)
        have hndT : ¬ ((b :: rest).map Prod.fst).Nodup := by
          intro hnod
          exact hnd (by simpa using List.nodup_cons.mpr ⟨hninT, hnod⟩)
        obtain ⟨d, v1, v2, j, hval, hm1, hm2⟩ := ih hpc.2 hndT (i + 1)
        refine ⟨d, v1, v2, j, ?_, List.mem_cons_of_mem a hm1, List.mem_cons_of_mem a hm2⟩
        rw [validateFrom, if_neg hd, if_neg h2]
        exact hval

/-! ### Supporting lemmas about numeric tokens and tokenization -/

theorem char_ofNat_digit_toNat (d : Nat) (h : d < 10) :
    (Char.ofNat (48 + d)).toNat = 48 + d := by
  interval_cases d <;> decide

theorem natToChars_ne_nil (n : Nat) : natToChars n ≠ [] := by
  unfold natToChars
  split
  · simp
  · simp

theorem natToChars_toNat_bounds :
    ∀ n : Nat, ∀ c ∈ natToChars n, 48 ≤ c.toNat ∧ c.toNat ≤ 57 := by
  intro n
  induction n using Nat.strong_induction_on with
  | _ n ih =>
    intro c hc
    unfold natToChars at hc
    by_cases h : n < 10
    · rw [dif_pos h] at hc
      simp only [List.mem_singleton] at hc
      subst hc
      rw [char_ofNat_digit_toNat n h]
      omega
    · rw [dif_neg h] at hc
      simp only [List.mem_append, List.mem_singleton] at hc
      rcases hc with hmem | hceq
      · exact ih (n / 10) (Nat.div_lt_self (by omega) (by decide)) c hmem
      · subst hceq
        have hm : n % 10 < 10 := Nat.mod_lt n (by decide)
        rw [char_ofNat_digit_toNat (n % 10) hm]
        omega

theorem natToChars_all_digits (n : Nat) : (natToChars n).all isDigitC = true := by
  rw [List.all_eq_true]
  intro c hc
  obtain ⟨h1, h2⟩ := natToChars_toNat_bounds n c hc
  simp only [isDigitC, Bool.and_eq_true, decide_eq_true_eq]
  omega

theorem natToChars_no_space (n : Nat) : ∀ c ∈ natToChars n, isSpaceC c = false := by
  intro c hc
  obtain ⟨h1, _⟩ := natToChars_toNat_bounds n c hc
  simp only [isSpaceC, Bool.or_eq_false_iff, beq_eq_false_iff_ne, ne_eq]
  omega

theorem foldl_digits_natToChars :
    ∀ n : Nat, ∀ acc : Nat,
      (natToChars n).foldl (fun a c => a * 10 + (c.toNat - 48)) acc =
        acc * 10 ^ (natToChars n).length + n := by
  intro n
  induction n using Nat.strong_induction_on with
  | _ n ih =>
    intro acc
    by_cases h : n < 10
    · unfold natToChars
      rw [dif_pos h]
      simp only [List.foldl_cons, List.foldl_nil, List.length_singleton, pow_one,
        char_ofNat_digit_toNat n h]
      omega
    · unfold natToChars
      rw [dif_neg h]
      rw [List.foldl_append]
      rw [ih (n / 10) (Nat.div_lt_self (by omega) (by decide)) acc]
      have hm : n % 10 < 10 := Nat.mod_lt n (by decide)
      simp only [List.foldl_cons, List.foldl_nil, List.length_append,
        List.length_singleton, char_ofNat_digit_toNat (n % 10) hm]
      have hdm : 10 * (n / 10) + n % 10 = n := Nat.div_add_mod n 10
      set L := (natToChars (n / 10)).length with hL
      calc (acc * 10 ^ L + n / 10) * 10 + (48 + n % 10 - 48)
          = acc * (10 ^ L * 10) + (10 * (n / 10) + n % 10) := by ring_nf; omega
        _ = acc * 10 ^ (L + 1) + n := by rw [hdm, pow_succ]

theorem parseNatL_natToChars (n : Nat) : parseNatL (natToChars n) = some n := by
  unfold parseNatL
  rw [if_neg (natToChars_ne_nil n), if_pos (natToChars_all_digits n)]
  unfold digitsVal
  rw [foldl_digits_natToChars n 0]
  simp

/-- Reading a run of non-whitespace characters accumulates them onto the
current token. -/
theorem tokenizeGo_token :
    ∀ (t : List Char), (∀ c ∈ t, isSpaceC c = false) →
      ∀ (cs acc : List Char), tokenizeGo (t ++ cs) acc = tokenizeGo cs (t.reverse ++ acc) := by
  intro t
  induction t with
  | nil => intro _ cs acc; simp
  | cons c t ih =>
    intro ht cs acc
    have hc : isSpaceC c = false := ht c (List.mem_cons_self c t)
    have ht2 : ∀ x ∈ t, isSpaceC x = false := fun x hx => ht x (List.mem_cons_of_mem c hx)
    rw [List.cons_append]
    simp only [tokenizeGo]
    rw [if_neg (by simp [hc])]
    rw [ih ht2 cs (c :: acc)]
    rw [List.reverse_cons, List.append_assoc, List.singleton_append]

/-- Tokenizing tokens joined by single spaces recovers the tokens, provided
each token is nonempty and free of whitespace. -/
theorem tokenizeL_joinTokens :
    ∀ (toks : List (List Char)),
      (∀ t ∈ toks, t ≠ [] ∧ ∀ c ∈ t, isSpaceC c = false) →
      tokenizeL (joinTokens toks) = toks := by
  intro toks
  induction toks with
  | nil => intro _; rfl
  | cons t ts ih =>
    intro h
    obtain ⟨hne, hns⟩ := h t (List.mem_cons_self t ts)
    obtain ⟨a, as, ha⟩ := List.exists_cons_of_ne_nil (by simpa using hne :
      t.reverse ≠ [])
    cases ts with
    | nil =>
      show tokenizeGo (joinTokens [t]) [] = [t]
      have : joinTokens [t] = t ++ [] := by simp [joinTokens]
      rw [this, tokenizeGo_token t hns [] [], List.append_nil, ha]
      show [(a :: as).reverse] = [t]
      rw [← ha, List.reverse_reverse]
    | cons t2 ts2 =>
      show tokenizeGo (joinTokens (t :: t2 :: ts2)) [] = t :: t2 :: ts2
      have hj : joinTokens (t :: t2 :: ts2) = t ++ ' ' :: joinTokens (t2 :: ts2) := rfl
      rw [hj, tokenizeGo_token t hns _ [], List.append_nil, ha]
      simp only [tokenizeGo]
      rw [if_pos (by decide : isSpaceC ' ' = true)]
      show (a :: as).reverse :: tokenizeGo (joinTokens (t2 :: ts2)) [] = t :: t2 :: ts2
      rw [← ha, List.reverse_reverse]
      exact congrArg (t :: ·) (ih fun x hx => h x (List.mem_cons_of_mem t hx))

/-- The serialization loop's tokens parse back to the original pairs. -/
theorem parsePairs_pairTokens {V : Type} (pv : List Char → Option V)
    (rv : V → List Char) (hrt : ∀ v, pv (rv v) = some v) :
    ∀ pairs : List (Nat × V), parsePairs pv (pairTokens rv pairs) = pairs := by
  intro pairs
  induction pairs with
  | nil => rfl
  | cons p rest ih =>
    rw [pairTokens, parsePairs, parseNatL_natToChars p.1, hrt p.2, ih]

/-- Every token emitted by the serialization loop is nonempty and free of
whitespace (for the id tokens by construction; for the value tokens by the
hypothesis on the external value rendering). -/
theorem pairTokens_clean {V : Type} (rv : V → List Char)
    (hclean : ∀ v, rv v ≠ [] ∧ ∀ c ∈ rv v, isSpaceC c = false) :
    ∀ pairs, ∀ t ∈ pairTokens rv pairs, t ≠ [] ∧ ∀ c ∈ t, isSpaceC c = false := by
  intro pairs
  induction pairs with
  | nil => intro t ht; simp [pairTokens] at ht
  | cons p rest ih =>
    intro t ht
    rw [pairTokens] at ht
    rcases List.mem_cons.mp ht with h | h
    · subst h; exact ⟨natToChars_ne_nil p.1, natToChars_no_space p.1⟩
    · rcases List.mem_cons.mp h with h2 | h2
      · subst h2; exact hclean p.2
      · exact ih t h2

/-! ### Claims about the sparse-vector space -/

/-- C4: a sparse line whose tokenized pairs repeat an index is rejected by
`CreateObjFromStr` with the duplicate-index condition, the error naming the
same index in both reported positions together with both offending
(index, value) pairs — both drawn from the tokenized pairs — and carrying
the input state's line number. -/
theorem sparse_duplicate_index_fatal {V : Type} (pv : List Char → Option V)
    (id : Int) (label : Option Int) (s : String) (st : DataFileInputState)
    (hdup : ¬ ((parsePairs pv (tokenizeL s.data)).map Prod.fst).Nodup) :
    ∃ d v1 v2 i, sparseCreateObjFromStr pv id label s (some st) =
      .error (.parseFail ⟨.dupIndex d v1 d v2 i, st.line_num⟩) ∧
      (d, v1) ∈ parsePairs pv (tokenizeL s.data) ∧
      (d, v2) ∈ parsePairs pv (tokenizeL s.data) := by
  set P := parsePairs pv (tokenizeL s.data) with hP
  have hperm : (List.insertionSort leId P).Perm P := List.perm_insertionSort leId P
  have hsorted : (List.insertionSort leId P).Pairwise leId :=
    List.sorted_insertionSort leId P
  have hdup2 : ¬ ((List.insertionSort leId P).map Prod.fst).Nodup := by
    intro hnod
    exact hdup ((hperm.map Prod.fst).nodup_iff.mp hnod)
  obtain ⟨d, v1, v2, j, hval, hm1, hm2⟩ :=
    validateFrom_dup (List.insertionSort leId P) hsorted hdup2 1
  refine ⟨d, v1, v2, j, ?_, hperm.mem_iff.mp hm1, hperm.mem_iff.mp hm2⟩
  simp only [sparseCreateObjFromStr, ReadSparseVec, ← hP, hval]

/-- Witness for C4 at the concrete line `"5 1.5 5 2.0"` (index 5 repeated),
read at line number 3. -/
theorem sparse_duplicate_index_fatal_witness :
    (¬ ((parsePairs parseDecL (tokenizeL "5 1.5 5 2.0".data)).map Prod.fst).Nodup) ∧
    (∃ d v1 v2 i,
      sparseCreateObjFromStr parseDecL 1 none "5 1.5 5 2.0" (some ⟨[], 3⟩) =
        .error (.parseFail ⟨.dupIndex d v1 d v2 i,
          (⟨[], 3⟩ : DataFileInputState).line_num⟩) ∧
      (d, v1) ∈ parsePairs parseDecL (tokenizeL "5 1.5 5 2.0".data) ∧
      (d, v2) ∈ parsePairs parseDecL (tokenizeL "5 1.5 5 2.0".data)) :=
  ⟨by decide,
   sparse_duplicate_index_fatal parseDecL 1 none "5 1.5 5 2.0" ⟨[], 3⟩ (by decide)⟩

/-- C3 counterexample: the line `"10 1.5 5 2.0"` presents index 5 after
index 10 — an index smaller than a preceding one — yet `CreateObjFromStr`
succeeds, returning the pairs sorted by index (values: ⟨15,1⟩ is 1.5 and
⟨20,1⟩ is 2.0), because the pairs are sorted before validation. -/
theorem sparse_out_of_order_accepted_cex :
    (parsePairs parseDecL (tokenizeL "10 1.5 5 2.0".data)).map Prod.fst = [10, 5] ∧
    sparseCreateObjFromStr parseDecL 1 none "10 1.5 5 2.0" (some ⟨[], 1⟩) =
      .ok ⟨1, none, [(5, ⟨20, 1⟩), (10, ⟨15, 1⟩)]⟩ ∧
    DecVal.toRat ⟨15, 1⟩ = 3 / 2 ∧ DecVal.toRat ⟨20, 1⟩ = 2 := by
  refine ⟨by decide, by decide, ?_, ?_⟩ <;> norm_num [DecVal.toRat]

/-- C3 amended: sparse parsing sorts the tokenized pairs by index before
validating, so a line whose indices are out of order but pairwise distinct
parses successfully into the sorted permutation of its pairs; the
out-of-order condition is never reported by `CreateObjFromStr` on any
input. -/
theorem sparse_out_of_order_sorted_not_rejected {V : Type}
    (pv : List Char → Option V) (id : Int) (label : Option Int) (s : String)
    (st : DataFileInputState) :
    (((parsePairs pv (tokenizeL s.data)).map Prod.fst).Nodup →
      ∃ l, sparseCreateObjFromStr pv id label s (some st) = .ok ⟨id, labelOf s, l⟩ ∧
        l.Perm (parsePairs pv (tokenizeL s.data)) ∧ l.Pairwise ltId) ∧
    createReportsOutOfOrder (sparseCreateObjFromStr pv id label s (some st)) = false := by
  set P := parsePairs pv (tokenizeL s.data) with hP
  have hperm : (List.insertionSort leId P).Perm P := List.perm_insertionSort leId P
  have hsorted : (List.insertionSort leId P).Pairwise leId :=
    List.sorted_insertionSort leId P
  constructor
  · intro hnd
    have hndS : ((List.insertionSort leId P).map Prod.fst).Nodup :=
      (hperm.map Prod.fst).nodup_iff.mpr hnd
    have hne : (List.insertionSort leId P).Pairwise (fun a b => a.1 ≠ b.1) := by
      rw [List.Nodup, List.pairwise_map] at hndS
      exact hndS
    have hlt : (List.insertionSort leId P).Pairwise ltId :=
      (hsorted.and hne).imp (fun h => Nat.lt_of_le_of_ne h.1 h.2)
    have hnone : validateFrom 1 (List.insertionSort leId P) = none :=
      validateFrom_eq_none _ hlt 1
    refine ⟨List.insertionSort leId P, ?_, hperm, hlt⟩
    simp only [sparseCreateObjFromStr, ReadSparseVec, ← hP, hnone]
    rfl
  · cases hv : validateFrom 1 (List.insertionSort leId P) with
    | none =>
      simp only [createReportsOutOfOrder, sparseCreateObjFromStr, ReadSparseVec,
        ← hP, hv]
    | some e =>
      have hooo := validateFrom_no_ooo (List.insertionSort leId P) hsorted 1 e hv
      simp only [createReportsOutOfOrder, sparseCreateObjFromStr, ReadSparseVec,
        ← hP, hv, hooo]

/-- Witness for C3 (amended): the out-of-order line `"10 1.5 5 2.0"` (with
distinct indices) parses into a sorted permutation of its pairs, and on the
duplicate line `"5 1.5 5 2.0"` the reported condition is (still) not the
out-of-order one. -/
theorem sparse_out_of_order_sorted_not_rejected_witness :
    (((parsePairs parseDecL (tokenizeL "10 1.5 5 2.0".data)).map Prod.fst).Nodup ∧
      ∃ l, sparseCreateObjFromStr parseDecL 1 none "10 1.5 5 2.0" (some ⟨[], 1⟩) =
          .ok ⟨1, labelOf "10 1.5 5 2.0", l⟩ ∧
        l.Perm (parsePairs parseDecL (tokenizeL "10 1.5 5 2.0".data)) ∧
        l.Pairwise ltId) ∧
    createReportsOutOfOrder
      (sparseCreateObjFromStr parseDecL 1 none "5 1.5 5 2.0" (some ⟨[], 1⟩)) = false :=
  ⟨⟨by decide,
    (sparse_out_of_order_sorted_not_rejected parseDecL 1 none "10 1.5 5 2.0"
      ⟨[], 1⟩).1 (by decide)⟩,
   (sparse_out_of_order_sorted_not_rejected parseDecL 1 none "5 1.5 5 2.0" ⟨[], 1⟩).2⟩

/-- C5 (code bug): on the spec's example line `"label:3 10 1.5 5 2.0"`, the
token stream is built from the raw line (space_sparse_vector.cc line 39,
before `extractLabel` and `ReplaceSomePunct` rewrite the local copy at lines
46-48), so `str >> id` fails at the token `label:3` and the read loop stops
immediately: the object parses with label 3 and an EMPTY pair list — not the
pairs [(5,2.0),(10,1.5)] the spec expects. -/
theorem sparse_label_line_empty_pairs :
    sparseCreateObjFromStr parseDecL 7 none "label:3 10 1.5 5 2.0" (some ⟨[], 1⟩) =
      .ok ⟨7, some 3, []⟩ ∧
    ([] : List (Nat × DecVal)) ≠ [(5, ⟨20, 1⟩), (10, ⟨15, 1⟩)] :=
  ⟨by decide, by decide⟩

/-- C6: round-trip. For any sparse object whose pairs are strictly
increasing in index, parsing the text produced by `CreateStrFromObj` yields
an object that `ApproxEqual` (exact sequence equality of the decoded pairs)
accepts — given that the external value rendering round-trips through the
external value extraction and emits nonempty whitespace-free tokens, the
guarantee `max_digits10` formatting provides for IEEE values. -/
theorem sparse_roundtrip {V : Type} [DecidableEq V]
    (pv : List Char → Option V) (rv : V → List Char)
    (hrt : ∀ v, pv (rv v) = some v)
    (hclean : ∀ v, rv v ≠ [] ∧ ∀ c ∈ rv v, isSpaceC c = false)
    (o : SparseObj V) (hsorted : o.pairs.Pairwise ltId)
    (id2 : Int) (label2 : Option Int) (st : DataFileInputState) :
    ∃ o2, sparseCreateObjFromStr pv id2 label2 (sparseCreateStrFromObj rv o)
        (some st) = .ok o2 ∧
      sparseApproxEqual o o2 = true := by
  have htoks : tokenizeL (sparseCreateStrFromObj rv o).data =
      pairTokens rv o.pairs :=
    tokenizeL_joinTokens (pairTokens rv o.pairs) (pairTokens_clean rv hclean o.pairs)
  have hparse : parsePairs pv (tokenizeL (sparseCreateStrFromObj rv o).data) =
      o.pairs := by
    rw [htoks]
    exact parsePairs_pairTokens pv rv hrt o.pairs
  have hsortid : List.insertionSort leId o.pairs = o.pairs :=
    List.Sorted.insertionSort_eq (hsorted.imp fun h => Nat.le_of_lt h)
  have hnone : validateFrom 1 o.pairs = none :=
    validateFrom_eq_none o.pairs hsorted 1
  refine ⟨⟨id2, labelOf (sparseCreateStrFromObj rv o), o.pairs⟩, ?_, ?_⟩
  · simp only [sparseCreateObjFromStr, ReadSparseVec, hparse, hsortid, hnone]
    rfl
  · simp [sparseApproxEqual, sparseCreateVectFromObj]

/-- Witness for C6 at the object with pairs [(5,2),(10,7)] over `Nat`
values, rendered and re-parsed with the decimal integer tokenizer. -/
theorem sparse_roundtrip_witness :
    (parseNatL (natToChars 7) = some 7) ∧
    ([((5 : Nat), (2 : Nat)), (10, 7)].Pairwise ltId) ∧
    (∃ o2, sparseCreateObjFromStr parseNatL 9 none
        (sparseCreateStrFromObj natToChars ⟨9, none, [(5, 2), (10, 7)]⟩)
        (some ⟨[], 1⟩) = .ok o2 ∧
      sparseApproxEqual ⟨9, none, [(5, 2), (10, 7)]⟩ o2 = true) :=
  ⟨parseNatL_natToChars 7, by decide,
   sparse_roundtrip parseNatL natToChars parseNatL_natToChars
     (fun v => ⟨natToChars_ne_nil v, natToChars_no_space v⟩)
     ⟨9, none, [(5, 2), (10, 7)]⟩ (by decide) 9 none ⟨[], 1⟩⟩

end Nmslib
